import Mathlib

/-!
# Verification of the AutoGenSubTitle pipeline (src/python/gen_subs_EN_v1.1.py)

Shallow embedding of the v1.1 subtitle-generation pipeline.  Conventions:

* The filesystem is an association list from paths to file contents.  A path is
  either a file in the working directory (`FPath.cwd`) or a file inside a
  subdirectory of the working directory (`FPath.sub dir name`), matching the two
  kinds of paths the script manipulates (whisper outputs land in the cwd, the
  pipeline's own artifacts land in the output directory).  File names are a
  stem/extension pair; stems are treated as atomic strings (the script derives
  every name from `video.stem` plus a literal extension, so names with extra
  interior dots are outside the modelled state space).
* Stateful code is modelled in a small deterministic state monad `M` over a
  state carrying the filesystem, the set of existing directories, the remaining
  standard-input lines, and a trace of observable events (subprocess
  invocations, prompts, file operations, the configuration summary and the
  final report).
* Python exceptions are `PyErr.exn`; `sys.exit(n)` is `PyErr.sysExit n`
  (`SystemExit` is not caught by `except Exception`, matching CPython).
  `input()` at end of stream raises (EOFError).
* External tools are oracles (`ToolBehavior`): whether each invocation exits 0,
  what bytes ffmpeg writes to the wav path, and which output files whisper
  leaves in the working directory.  Terminal cosmetics (rich/pyfiglet banners,
  colors, spinners) have no behavioural content and are not modelled; the
  rich/plain variants of `ask_choice` parse replies identically and are
  modelled once.
-/

set_option maxRecDepth 10000

namespace AutoGenSub

/-- A JSON value stored in a field of the companion JSON artifact, abstracted
to what the pipeline can observe: a string, or some other JSON value together
with its Python truthiness. -/
inductive JVal
  | jstr (s : String)
  | jother (isTruthyVal : Bool)
deriving DecidableEq, Repr

/-- Python truthiness of a JSON value. -/
def JVal.isTruthy : JVal → Bool
  | .jstr s => s ≠ ""
  | .jother t => t

/-- Contents of a file, abstracted by how `json.load` would see the bytes:
raw non-JSON bytes (video/audio/subtitle data), a JSON object with named
fields, some other JSON document (no `.get` method), or unparseable bytes. -/
inductive Content
  | raw (data : String)
  | jsonDict (fields : List (String × JVal))
  | jsonOther
  | invalid
deriving DecidableEq, Repr

/-- A file name: stem plus extension (the extension includes its dot, or is
empty for extension-less names such as the base passed to
`find_detected_language`). -/
structure FName where
  stem : String
  ext : String
deriving DecidableEq, Repr

/-- A path: a file in the working directory, or a file in a named
subdirectory of the working directory. -/
inductive FPath
  | cwd (n : FName)
  | sub (dir : String) (n : FName)
deriving DecidableEq, Repr

/-- The file name component of a path (`Path.name`, split as stem/suffix). -/
def FPath.fname : FPath → FName
  | .cwd n => n
  | .sub _ n => n

/-- `Path.with_suffix`: replace the extension, keep directory and stem. -/
def FPath.withSuffix : FPath → String → FPath
  | .cwd n, e => .cwd ⟨n.stem, e⟩
  | .sub d n, e => .sub d ⟨n.stem, e⟩

/-- `str(path)`, used when a path is passed as a subprocess argument. -/
def FPath.render : FPath → String
  | .cwd n => n.stem ++ n.ext
  | .sub d n => d ++ "/" ++ n.stem ++ n.ext

/-- The filesystem: an association list from paths to contents (no duplicate
keys are ever created by the operations below). -/
abbrev FS := List (FPath × Content)

/-- Look up the content stored at a path. -/
def lookupFile : FS → FPath → Option Content
  | [], _ => none
  | (q, c) :: rest, p => if q = p then some c else lookupFile rest p

/-- Remove a path from the filesystem. -/
def removeFile (fs : FS) (p : FPath) : FS :=
  fs.filter (fun e => decide (e.1 ≠ p))

/-- Create or overwrite the file at a path. -/
def setFile (fs : FS) (p : FPath) (c : Content) : FS :=
  (p, c) :: removeFile fs p

/-- Observable events of a run. -/
inductive Event
  | exec (cmd : List String)
  | mkdirp (dir : String)
  | moveFile (src dst : FPath)
  | unlinked (p : FPath)
  | created (p : FPath)
  | prompt (text : String)
  | configShown (model : String) (language : Option String)
      (translate clean overwrite skip : Bool) (outDir : String)
  | summary (srtExists : Bool) (shownLanguage : String) (whisperSucceeded : Bool)
deriving DecidableEq, Repr

/-- Machine state threaded through the run. -/
structure S where
  files : FS
  dirs : List String
  inp : List String
  trace : List Event
deriving DecidableEq, Repr

/-- How a computation ends abnormally: `sys.exit(n)` (a `SystemExit`, not
caught by `except Exception`) or an ordinary propagating Python exception. -/
inductive PyErr
  | sysExit (code : Nat)
  | exn
deriving DecidableEq, Repr

/-- Outcome of a stateful computation. -/
inductive Res (α : Type)
  | ok (a : α) (s : S)
  | err (e : PyErr) (s : S)

/-- The run monad: deterministic state passing with abrupt termination. -/
def M (α : Type) := S → Res α

def M.pure (a : α) : M α := fun s => .ok a s

def M.bind (x : M α) (f : α → M β) : M β := fun s =>
  match x s with
  | .ok a s' => f a s'
  | .err e s' => .err e s'

instance : Monad M where
  pure := M.pure
  bind := M.bind

/-- Read the current state. -/
def getS : M S := fun s => .ok s s

/-- Replace the current state. -/
def setS (s' : S) : M Unit := fun _ => .ok () s'

/-- Append an event to the trace. -/
def emit (e : Event) : M Unit := fun s =>
  .ok () { s with trace := s.trace ++ [e] }

/-- Raise an ordinary Python exception. -/
def throwExn : M α := fun s => .err .exn s

/-- `sys.exit(n)`. -/
def sysExit (n : Nat) : M α := fun s => .err (.sysExit n) s

/-- `input(prompt)`: show the prompt, consume one line; raise EOFError when
the input stream is exhausted. -/
def readLine (promptText : String) : M String := fun s =>
  match s.inp with
  | [] => .err .exn { s with trace := s.trace ++ [Event.prompt promptText] }
  | l :: rest =>
      .ok l { s with inp := rest, trace := s.trace ++ [Event.prompt promptText] }

/-- `path.exists()`. -/
def fileExists (p : FPath) : M Bool := fun s =>
  .ok (lookupFile s.files p).isSome s

/-- Create or overwrite a file. -/
def setFileM (p : FPath) (c : Content) : M Unit := fun s =>
  .ok () { s with files := setFile s.files p c, trace := s.trace ++ [Event.created p] }

/-- `path.unlink()` (the script only calls it after an existence check). -/
def unlinkFileM (p : FPath) : M Unit := fun s =>
  .ok () { s with files := removeFile s.files p, trace := s.trace ++ [Event.unlinked p] }

/-- `src.replace(dest)` / `shutil.move` once the source is known to exist:
move the content, silently replacing any file already at the destination. -/
def replaceFileM (src dst : FPath) : M Unit := fun s =>
  match lookupFile s.files src with
  | none => .ok () s
  | some c =>
      .ok () { s with files := setFile (removeFile s.files src) dst c,
                      trace := s.trace ++ [Event.moveFile src dst] }

/-- `dir.mkdir(parents=True, exist_ok=True)`. -/
def mkdirp (d : String) : M Unit := fun s =>
  .ok () { s with dirs := if d ∈ s.dirs then s.dirs else s.dirs ++ [d],
                  trace := s.trace ++ [Event.mkdirp d] }

/-- The recognised whisper model sizes (`MODELS`). -/
def MODELS : List String := ["tiny", "base", "small", "medium", "large"]

/-- The fixed set of expected whisper output extensions (`WHISPER_EXTS`). -/
def WHISPER_EXTS : List String := [".srt", ".json", ".tsv", ".txt", ".vtt"]

/-- The exact ffmpeg argument vector built by `extract_audio`. -/
def ffmpegCmd (videoPath wavPath : String) : List String :=
  ["ffmpeg", "-hide_banner", "-loglevel", "error",
   "-i", videoPath,
   "-ar", "16000", "-ac", "1",
   "-c:a", "pcm_s16le",
   wavPath]

/-- The exact whisper argument vector built by `run_whisper`. -/
def whisperCmd (wavPath model : String) (language : Option String)
    (translate : Bool) : List String :=
  let task := if translate then "translate" else "transcribe"
  let cmd := ["whisper", wavPath, "--model", model, "--task", task]
  match language with
  | some l => cmd ++ ["--language", l]
  | none => cmd

/-- `data.get(k)` on the parsed JSON object. -/
def dictGet (fields : List (String × JVal)) (k : String) : Option JVal :=
  fields.lookup k

/-- Python truthiness of an `Optional` value (`None` is falsy). -/
def pyTruthy : Option JVal → Bool
  | none => false
  | some v => v.isTruthy

/-- Python `a or b`: `a` when truthy, otherwise `b`. -/
def pyOr (a b : Option JVal) : Option JVal :=
  if pyTruthy a then a else b

/-- `find_detected_language(srt_base)`: read the companion JSON artifact at
`srt_base.with_suffix(".json")`; on a parsed JSON object return
`data.get("language") or data.get("language_detected") or None`; on a missing
file, unparseable bytes, or a non-object document return `None` (the function
swallows every exception). -/
def find_detected_language (files : FS) (srtBase : FPath) : Option JVal :=
  let jsonPath := srtBase.withSuffix ".json"
  match lookupFile files jsonPath with
  | none => none
  | some (Content.jsonDict fields) =>
      pyOr (dictGet fields "language") (pyOr (dictGet fields "language_detected") none)
  | some _ => none

/-- The language cell of the final report:
`result.detected_language or "Unknown"` (a falsy value prints as "Unknown";
the rendering of a truthy non-string value is abstracted). -/
def displayLanguage : Option JVal → String
  | none => "Unknown"
  | some (.jstr s) => if s = "" then "Unknown" else s
  | some (.jother t) => if t then "non-string value" else "Unknown"

/-- Oracle for the two external tools: whether each invocation exits 0, the
bytes ffmpeg writes to the wav path on success, and the output files (by
extension) whisper leaves in the working directory. -/
structure ToolBehavior where
  ffmpegOk : Bool
  wavData : String
  whisperOk : Bool
  whisperWrites : List (String × Content)

/-- `extract_audio`: invoke ffmpeg with the fixed argument profile via
`run_cmd_streamed`; on success the wav file appears, on a non-zero exit
`run_cmd_streamed` raises `RuntimeError`. -/
def extract_audio (tb : ToolBehavior) (videoPath wavPath : FPath) : M Unit := do
  emit (Event.exec (ffmpegCmd videoPath.render wavPath.render))
  if tb.ffmpegOk then
    setFileM wavPath (Content.raw tb.wavData)
  else
    throwExn

/-- The files whisper leaves in the working directory, named by the input
stem plus the tool's output extensions. -/
def writeWhisperOutputs (stem : String) : List (String × Content) → M Unit
  | [] => M.pure ()
  | (ext, c) :: rest => do
      setFileM (FPath.cwd ⟨stem, ext⟩) c
      writeWhisperOutputs stem rest

/-- `run_whisper`: invoke whisper via `run_cmd_streamed` with the selected
model/task/language arguments; the tool writes its outputs into the working
directory, and `run_cmd_streamed` raises on a non-zero exit. -/
def run_whisper (tb : ToolBehavior) (wavPath : FPath) (model : String)
    (language : Option String) (translate : Bool) (stem : String) : M Unit := do
  emit (Event.exec (whisperCmd wavPath.render model language translate))
  writeWhisperOutputs stem tb.whisperWrites
  if tb.whisperOk then M.pure () else throwExn

/-- The loop body of `move_whisper_outputs`: for each expected extension, if
`stem+ext` exists in the working directory, `replace` it into the target
directory. -/
def moveOutputsLoop (stem targetDir : String) : List String → M Unit
  | [] => M.pure ()
  | ext :: rest => do
      let src := FPath.cwd ⟨stem, ext⟩
      let ex ← fileExists src
      if ex then replaceFileM src (FPath.sub targetDir ⟨stem, ext⟩) else M.pure ()
      moveOutputsLoop stem targetDir rest

/-- `move_whisper_outputs(video_base, target_dir)`. -/
def move_whisper_outputs (stem targetDir : String) : M Unit :=
  moveOutputsLoop stem targetDir WHISPER_EXTS

/-- The `while True` collision scan of `move_video_into_dir`: try
`base_1`, `base_2`, ... until a candidate does not exist.  The scan is given
fuel; in reality distinct indices render distinct names, so the scan always
finds a fresh candidate after at most `|files|` collisions. -/
def pickSuffixed (files : FS) (targetDir base suffix : String) :
    Nat → Nat → Option FPath
  | 0, _ => none
  | fuel + 1, i =>
      let candidate := FPath.sub targetDir ⟨base ++ "_" ++ toString i, suffix⟩
      if (lookupFile files candidate).isSome then
        pickSuffixed files targetDir base suffix fuel (i + 1)
      else
        some candidate

/-- `move_video_into_dir(video, target_dir)`: destination is
`target_dir / video.name`, replaced by the first fresh `stem_i + suffix`
candidate when that name is taken; `shutil.move` then relocates the file, and
on failure (source missing) the function falls back to returning the original
path.  When the scan has not yet found a candidate the model leaves the state
untouched (the Python loop would still be scanning). -/
def move_video_into_dir (video : FPath) (targetDir : String) : M FPath := do
  let s ← getS
  let n := video.fname
  let dest0 := FPath.sub targetDir n
  let destPick :=
    if (lookupFile s.files dest0).isSome then
      pickSuffixed s.files targetDir n.stem n.ext (s.files.length + 1) 1
    else
      some dest0
  match destPick with
  | none => M.pure video
  | some dest =>
      match lookupFile s.files video with
      | none => M.pure video
      | some c => do
          setS { s with files := setFile (removeFile s.files video) dest c,
                        trace := s.trace ++ [Event.moveFile video dest] }
          M.pure dest

/-- The environment of a run: which tools `shutil.which` resolves, whether
stdin is a tty, and the behavior of the external tools. -/
structure Env where
  ffmpegFound : Bool
  whisperFound : Bool
  isatty : Bool
  tb : ToolBehavior

/-- `check_tools()`. -/
def check_tools (env : Env) : Bool × Bool :=
  (env.ffmpegFound, env.whisperFound)

/-- `process_video`: skip/overwrite bypass, extraction, transcription with
its failure recorded rather than propagated, relocation of whisper outputs,
optional wav cleanup, and post-hoc language detection. -/
structure RunResult where
  video : FPath
  wav : FPath
  srt : FPath
  detected_language : Option JVal
  duration : Nat
  whisper_succeeded : Bool
deriving DecidableEq, Repr

/-- `try: run_whisper(...) except Exception: ...` — an ordinary exception is
caught and turned into `False`; a `SystemExit` would propagate. -/
def attempt (x : M Unit) : M Bool := fun s =>
  match x s with
  | .ok _ s' => .ok true s'
  | .err .exn s' => .ok false s'
  | .err (.sysExit n) s' => .err (.sysExit n) s'

/-- The bypass return of `process_video` (skip-if-exists, or overwrite
disabled): no tool runs, the existing companion artifact is consulted, and
the result is reported with `whisper_succeeded=True`. -/
def bypassResult (files : FS) (video wav srt : FPath) (outDir stem : String) :
    RunResult :=
  ⟨video, wav, srt, find_detected_language files (FPath.sub outDir ⟨stem, ""⟩),
   0, true⟩

def process_video (tb : ToolBehavior) (video : FPath) (model : String)
    (language : Option String)
    (translate_to_en clean_wav overwrite skip_if_exists : Bool)
    (out_dir : String) : M RunResult := do
  let stem := video.fname.stem
  let wav := FPath.sub out_dir ⟨stem, ".wav"⟩
  let srt := FPath.sub out_dir ⟨stem, ".srt"⟩
  let srtEx ← fileExists srt
  if srtEx && skip_if_exists then do
    -- ".srt exists and skip_if_exists enabled, skipping Whisper step."
    let s ← getS
    M.pure (bypassResult s.files video wav srt out_dir stem)
  else if srtEx && !overwrite then do
    -- ".srt exists and overwrite disabled, skipping Whisper step."
    let s ← getS
    M.pure (bypassResult s.files video wav srt out_dir stem)
  else do
    extract_audio tb video wav
    let whisper_ok ← attempt (run_whisper tb wav model language translate_to_en stem)
    move_whisper_outputs stem out_dir
    let wavEx ← fileExists wav
    if clean_wav && wavEx then unlinkFileM wav else M.pure ()
    let s ← getS
    M.pure ⟨video, wav, srt,
            find_detected_language s.files (FPath.sub out_dir ⟨stem, ""⟩),
            0, whisper_ok⟩

/-- Python `str.strip()` (ASCII whitespace), written over the character list
so that it evaluates inside the kernel. -/
def pyStrip (s : String) : String :=
  String.mk (((s.data.dropWhile Char.isWhitespace).reverse.dropWhile
    Char.isWhitespace).reverse)

/-- Python `str.lower()` (on the ASCII replies in scope). -/
def pyLower (s : String) : String :=
  String.mk (s.data.map Char.toLower)

/-- Python `resp.isdigit()` followed by `int(resp)`: `some` of the numeric
value exactly when the reply is a non-empty digit string. -/
def pyToNat (s : String) : Option Nat :=
  if s.data ≠ [] ∧ s.data.all Char.isDigit then
    some (s.data.foldl (fun acc c => acc * 10 + (c.toNat - 48)) 0)
  else none

/-- One reply to `ask_choice`: empty ⇒ default; a digit string ⇒ the 1-based
index into the options when in range; otherwise an exact option name; anything
else is invalid and the loop re-prompts.  (The rich and plain variants parse
replies identically.) -/
def parseChoice (options : List String) (default : String) (resp : String) :
    Option String :=
  if resp = "" then some default
  else
    match pyToNat resp with
    | some k => if 1 ≤ k ∧ k ≤ options.length then options[k - 1]? else none
    | none => if resp ∈ options then some resp else none

/-- The re-prompting loop of `ask_choice`; the fuel is the length of the
remaining input, so running out of fuel coincides with `input()` raising at
end of stream. -/
def askChoiceGo (promptText : String) (options : List String) (default : String) :
    Nat → M String
  | 0 => do
      let _ ← readLine promptText
      throwExn
  | fuel + 1 => do
      let resp ← readLine promptText
      match parseChoice options default (pyStrip resp) with
      | some v => M.pure v
      | none => askChoiceGo promptText options default fuel

/-- `ask_choice(prompt, options, default)`. -/
def ask_choice (promptText : String) (options : List String) (default : String) :
    M String := fun s =>
  askChoiceGo promptText options default s.inp.length s

/-- One reply to `yes_no`: empty ⇒ default, y/yes/o/oui ⇒ True, n/no ⇒ False,
anything else invalid. -/
def parseYesNo (default : Bool) (resp : String) : Option Bool :=
  if resp = "" then some default
  else if resp = "y" ∨ resp = "yes" ∨ resp = "o" ∨ resp = "oui" then some true
  else if resp = "n" ∨ resp = "no" then some false
  else none

/-- The re-prompting loop of `yes_no` (replies are stripped and lowercased). -/
def yesNoGo (promptText : String) (default : Bool) : Nat → M Bool
  | 0 => do
      let _ ← readLine promptText
      throwExn
  | fuel + 1 => do
      let resp ← readLine promptText
      match parseYesNo default (pyLower (pyStrip resp)) with
      | some v => M.pure v
      | none => yesNoGo promptText default fuel

/-- `yes_no(prompt, default)`. -/
def yes_no (promptText : String) (default : Bool) : M Bool := fun s =>
  yesNoGo promptText default s.inp.length s

/-- Parsed command-line arguments (`argparse` surface).  The positional video
argument and the optional log path are files in the working directory. -/
structure Args where
  video : FName
  model : Option String
  language : Option String
  translate_to_en : Bool
  no_clean : Bool
  no_overwrite : Bool
  no_skip : Bool
  log : Option FName

/-- The resolved run configuration, as displayed in the summary table. -/
structure Config where
  model : String
  language : Option String
  translate_to_en : Bool
  clean_wav : Bool
  overwrite : Bool
  skip_if_exists : Bool
  out_dir : String
deriving DecidableEq, Repr

/-- `setup_logger(log_path)`: attaching the `FileHandler` opens the log file
in append mode, creating it when absent (later log writes are not modelled;
only this file creation matters to the filesystem state). -/
def setup_logger (log : Option FName) : M Unit := do
  match log with
  | none => M.pure ()
  | some n => do
      let ex ← fileExists (FPath.cwd n)
      if ex then M.pure () else setFileM (FPath.cwd n) (Content.raw "")

/-- The configuration-resolution section of `main` (model choice through the
translate prompt, lines 284–306): each field comes from its flag when given;
the model and language prompts are issued whenever the flag is absent,
regardless of `isatty`, while the folder/clean/translate prompts are gated on
`sys.stdin.isatty()`.  Creates the output directory. -/
def collectConfig (env : Env) (args : Args) : M Config := do
  let model ←
    match args.model with
    | some m => M.pure m
    | none => ask_choice "Choose Whisper model size:" MODELS "small"
  let language ←
    match args.language with
    | some l => M.pure (some l)
    | none => do
        let lang_input ← readLine "Source audio language (e.g., en, fr, es) [auto-detect]: "
        M.pure (if pyStrip lang_input = "" then none else some (pyStrip lang_input))
  let out_dir ←
    if !env.isatty then
      M.pure args.video.stem
    else do
      let name ← readLine "Output folder name: "
      M.pure (if pyStrip name = "" then args.video.stem else pyStrip name)
  mkdirp out_dir
  let clean_wav ←
    if env.isatty then yes_no "Clean .wav after run?" true
    else M.pure (!args.no_clean)
  let overwrite := !args.no_overwrite
  let skip_if_exists := !args.no_skip
  let translate_to_en ←
    if args.translate_to_en then M.pure true
    else if env.isatty then yes_no "Translate to English?" false
    else M.pure false
  M.pure ⟨model, language, translate_to_en, clean_wav, overwrite, skip_if_exists, out_dir⟩

/-- The body of `main`'s `try` block: input validation, configuration,
summary display, confirmation, tool check, pipeline, video relocation, and
the final report. -/
def mainTry (env : Env) (args : Args) : M Unit := do
  let video := FPath.cwd args.video
  let vEx ← fileExists video
  if !vEx then sysExit 1 else M.pure ()
  let cfg ← collectConfig env args
  emit (Event.configShown cfg.model cfg.language cfg.translate_to_en
          cfg.clean_wav cfg.overwrite cfg.skip_if_exists cfg.out_dir)
  let go ← yes_no "Start processing?" true
  if !go then sysExit 0 else M.pure ()
  let (ffmpeg_ok, whisper_ok) := check_tools env
  if !(ffmpeg_ok && whisper_ok) then sysExit 1 else M.pure ()
  let result ← process_video env.tb video cfg.model cfg.language
      cfg.translate_to_en cfg.clean_wav cfg.overwrite cfg.skip_if_exists cfg.out_dir
  let new_video_path ← move_video_into_dir video cfg.out_dir
  let result := if new_video_path ≠ video then { result with video := new_video_path } else result
  let srtEx ← fileExists result.srt
  emit (Event.summary srtEx (displayLanguage result.detected_language)
          result.whisper_succeeded)

/-- `main()`: logger setup happens before the `try` block; an ordinary
exception reaching the top-level handler exits 1; `sys.exit(n)` (a
`SystemExit`, uncaught by `except Exception`) exits with `n`; normal
completion exits 0. -/
def runMain (env : Env) (args : Args) (s0 : S) : Nat × S :=
  match (M.bind (setup_logger args.log) (fun _ => mainTry env args)) s0 with
  | .ok _ s => (0, s)
  | .err (.sysExit n) s => (n, s)
  | .err .exn s => (1, s)

/-- The subprocess invocations recorded in a trace, in order. -/
def execs (t : List Event) : List (List String) :=
  t.filterMap (fun e => match e with | .exec c => some c | _ => none)

/-- The prompts recorded in a trace, in order. -/
def prompts (t : List Event) : List String :=
  t.filterMap (fun e => match e with | .prompt p => some p | _ => none)

/-! ## Pure descriptions of the effect of each compound operation

Each stateful pipeline stage has a companion pair of pure functions giving its
effect on the filesystem and the events it appends; the `_apply` lemmas below
prove the stage equal to its description. -/

/-- Effect of `writeWhisperOutputs` on the filesystem. -/
def wwFiles (stem : String) : List (String × Content) → FS → FS
  | [], fs => fs
  | (ext, c) :: rest, fs => wwFiles stem rest (setFile fs (FPath.cwd ⟨stem, ext⟩) c)

/-- Events appended by `writeWhisperOutputs`. -/
def wwEvents (stem : String) : List (String × Content) → List Event
  | [] => []
  | (ext, _) :: rest => Event.created (FPath.cwd ⟨stem, ext⟩) :: wwEvents stem rest

/-- Effect of `moveOutputsLoop` on the filesystem. -/
def moFiles (stem targetDir : String) : List String → FS → FS
  | [], fs => fs
  | ext :: rest, fs =>
      match lookupFile fs (FPath.cwd ⟨stem, ext⟩) with
      | none => moFiles stem targetDir rest fs
      | some c =>
          moFiles stem targetDir rest
            (setFile (removeFile fs (FPath.cwd ⟨stem, ext⟩))
              (FPath.sub targetDir ⟨stem, ext⟩) c)

/-- Events appended by `moveOutputsLoop`. -/
def moEvents (stem targetDir : String) : List String → FS → List Event
  | [], _ => []
  | ext :: rest, fs =>
      match lookupFile fs (FPath.cwd ⟨stem, ext⟩) with
      | none => moEvents stem targetDir rest fs
      | some c =>
          Event.moveFile (FPath.cwd ⟨stem, ext⟩) (FPath.sub targetDir ⟨stem, ext⟩) ::
            moEvents stem targetDir rest
              (setFile (removeFile fs (FPath.cwd ⟨stem, ext⟩))
                (FPath.sub targetDir ⟨stem, ext⟩) c)

/-- The destination `move_video_into_dir` chooses (`none` while the collision
scan is still running). -/
def mvDest (fs : FS) (video : FPath) (targetDir : String) : Option FPath :=
  let n := video.fname
  let dest0 := FPath.sub targetDir n
  if (lookupFile fs dest0).isSome then
    pickSuffixed fs targetDir n.stem n.ext (fs.length + 1) 1
  else some dest0

/-- Effect of `move_video_into_dir` on the filesystem. -/
def mvFiles (fs : FS) (video : FPath) (targetDir : String) : FS :=
  match mvDest fs video targetDir with
  | none => fs
  | some dest =>
      match lookupFile fs video with
      | none => fs
      | some c => setFile (removeFile fs video) dest c

/-- The path `move_video_into_dir` returns. -/
def mvRet (fs : FS) (video : FPath) (targetDir : String) : FPath :=
  match mvDest fs video targetDir with
  | none => video
  | some dest =>
      match lookupFile fs video with
      | none => video
      | some _ => dest

/-- Events appended by `move_video_into_dir`. -/
def mvEvents (fs : FS) (video : FPath) (targetDir : String) : List Event :=
  match mvDest fs video targetDir with
  | none => []
  | some dest =>
      match lookupFile fs video with
      | none => []
      | some _ => [Event.moveFile video dest]

/-- The wav artifact path of a run. -/
def wavPath (out_dir stem : String) : FPath := FPath.sub out_dir ⟨stem, ".wav"⟩

/-- The subtitle artifact path of a run. -/
def srtPath (out_dir stem : String) : FPath := FPath.sub out_dir ⟨stem, ".srt"⟩

/-- Effect of the non-bypass path of `process_video` on the filesystem (with
ffmpeg succeeding): wav written, whisper outputs written to the cwd, outputs
relocated, wav removed when the clean flag is set. -/
def pvFiles (tb : ToolBehavior) (stem out_dir : String) (clean : Bool) (fs : FS) : FS :=
  let wav := wavPath out_dir stem
  let fs1 := setFile fs wav (Content.raw tb.wavData)
  let fs2 := wwFiles stem tb.whisperWrites fs1
  let fs3 := moFiles stem out_dir WHISPER_EXTS fs2
  if clean && (lookupFile fs3 wav).isSome then removeFile fs3 wav else fs3

/-- Events appended by the non-bypass path of `process_video` (with ffmpeg
succeeding). -/
def pvEvents (tb : ToolBehavior) (videoR stem out_dir : String) (model : String)
    (language : Option String) (translate clean : Bool) (fs : FS) : List Event :=
  let wav := wavPath out_dir stem
  let fs1 := setFile fs wav (Content.raw tb.wavData)
  let fs2 := wwFiles stem tb.whisperWrites fs1
  let fs3 := moFiles stem out_dir WHISPER_EXTS fs2
  [Event.exec (ffmpegCmd videoR wav.render), Event.created wav,
   Event.exec (whisperCmd wav.render model language translate)]
    ++ wwEvents stem tb.whisperWrites
    ++ moEvents stem out_dir WHISPER_EXTS fs2
    ++ (if clean && (lookupFile fs3 wav).isSome then [Event.unlinked wav] else [])

/-- Effect of `setup_logger` on the filesystem: the `FileHandler` creates the
log file when a log path is given and the file is absent. -/
def setupLoggerFiles (log : Option FName) (fs : FS) : FS :=
  match log with
  | none => fs
  | some n =>
      if (lookupFile fs (FPath.cwd n)).isSome then fs
      else setFile fs (FPath.cwd n) (Content.raw "")

/-- Events appended by `setup_logger`. -/
def setupLoggerEvents (log : Option FName) (fs : FS) : List Event :=
  match log with
  | none => []
  | some n =>
      if (lookupFile fs (FPath.cwd n)).isSome then []
      else [Event.created (FPath.cwd n)]

/-! ## Concrete sample runs (used by counterexamples and witnesses) -/

/-- A sample video file name. -/
def demoVid : FName := ⟨"demo", ".mp4"⟩

/-- A sample tool behavior: both tools succeed; whisper writes an `.srt` and a
companion `.json` naming French as the detected language. -/
def demoTB : ToolBehavior :=
  ⟨true, "AUDIO", true,
   [(".srt", .raw "1 subtitle"), (".json", .jsonDict [("language", .jstr "fr")])]⟩

/-- A sample environment with both tools installed and stdin not a tty. -/
def demoEnv : Env := ⟨true, true, false, demoTB⟩

/-- The same environment with ffmpeg missing from the search path. -/
def demoEnvNoFfmpeg : Env := ⟨false, true, false, demoTB⟩

/-- Fully flag-driven arguments for the sample video. -/
def demoArgs : Args := ⟨demoVid, some "small", some "fr", false, false, false, false, none⟩

/-- The sample arguments without a model flag. -/
def demoArgsNoModel : Args := ⟨demoVid, none, some "fr", false, false, false, false, none⟩

/-- An initial state holding only the sample video, with one blank stdin line
(answering the start-confirmation prompt with its default). -/
def demoS : S := ⟨[(FPath.cwd demoVid, .raw "videobytes")], [], [""], []⟩

/-- An initial state whose stdin answers the model prompt with "1" (= tiny)
and the start confirmation with its default. -/
def demoSModelReply : S := ⟨[(FPath.cwd demoVid, .raw "videobytes")], [], ["1", ""], []⟩

/-- A tool behavior in which ffmpeg succeeds but the whisper invocation exits
non-zero after leaving only a companion JSON behind. -/
def demoTBWhisperFail : ToolBehavior :=
  ⟨true, "AUDIO", false, [(".json", .jsonDict [("language", .jstr "fr")])]⟩

/-- An environment with both tools installed, stdin not a tty, and whisper
failing. -/
def demoEnvWhisperFail : Env := ⟨true, true, false, demoTBWhisperFail⟩

/-- A state from an earlier completed run: the output directory already holds
the subtitle output and a companion JSON with a detected language. -/
def demoSkipS : S :=
  ⟨[(FPath.cwd demoVid, .raw "videobytes"),
    (FPath.sub "demo" ⟨"demo", ".srt"⟩, .raw "old subs"),
    (FPath.sub "demo" ⟨"demo", ".json"⟩, .jsonDict [("language", .jstr "en")])],
   ["demo"], [""], []⟩

/-- An output directory state where the video's name is already taken (by an
unrelated file) and so is the first suffixed candidate. -/
def demoCollideS : S :=
  ⟨[(FPath.cwd demoVid, .raw "videobytes"),
    (FPath.sub "demo" ⟨"demo", ".mp4"⟩, .raw "unrelated"),
    (FPath.sub "demo" ⟨"demo_1", ".mp4"⟩, .raw "also taken")],
   ["demo"], [], []⟩

/-! ## Evaluation lemmas for the run monad -/

@[simp] theorem bind_eq_Mbind (x : M α) (f : α → M β) : x >>= f = M.bind x f := rfl

@[simp] theorem pure_eq_Mpure (a : α) : (pure a : M α) = M.pure a := rfl

@[simp] theorem Mbind_apply (x : M α) (f : α → M β) (s : S) :
    M.bind x f s =
      match x s with
      | .ok a s₁ => f a s₁
      | .err e s₁ => .err e s₁ := rfl

@[simp] theorem Mpure_apply (a : α) (s : S) : M.pure a s = Res.ok a s := rfl

@[simp] theorem getS_apply (s : S) : getS s = Res.ok s s := rfl

@[simp] theorem setS_apply (s' s : S) : setS s' s = Res.ok () s' := rfl

@[simp] theorem emit_apply (e : Event) (s : S) :
    emit e s = Res.ok () { s with trace := s.trace ++ [e] } := rfl

@[simp] theorem throwExn_apply (s : S) : (throwExn : M α) s = Res.err .exn s := rfl

@[simp] theorem sysExit_apply (n : Nat) (s : S) :
    (sysExit n : M α) s = Res.err (.sysExit n) s := rfl

@[simp] theorem readLine_apply (p : String) (s : S) :
    readLine p s =
      match s.inp with
      | [] => Res.err .exn { s with trace := s.trace ++ [Event.prompt p] }
      | l :: rest =>
          Res.ok l { s with inp := rest, trace := s.trace ++ [Event.prompt p] } := rfl

@[simp] theorem fileExists_apply (p : FPath) (s : S) :
    fileExists p s = Res.ok (lookupFile s.files p).isSome s := rfl

@[simp] theorem setFileM_apply (p : FPath) (c : Content) (s : S) :
    setFileM p c s =
      Res.ok () { s with files := setFile s.files p c,
                         trace := s.trace ++ [Event.created p] } := rfl

@[simp] theorem unlinkFileM_apply (p : FPath) (s : S) :
    unlinkFileM p s =
      Res.ok () { s with files := removeFile s.files p,
                         trace := s.trace ++ [Event.unlinked p] } := rfl

@[simp] theorem replaceFileM_apply (src dst : FPath) (s : S) :
    replaceFileM src dst s =
      match lookupFile s.files src with
      | none => Res.ok () s
      | some c =>
          Res.ok () { s with files := setFile (removeFile s.files src) dst c,
                             trace := s.trace ++ [Event.moveFile src dst] } := rfl

@[simp] theorem mkdirp_apply (d : String) (s : S) :
    mkdirp d s =
      Res.ok () { s with dirs := if d ∈ s.dirs then s.dirs else s.dirs ++ [d],
                         trace := s.trace ++ [Event.mkdirp d] } := rfl

@[simp] theorem attempt_apply (x : M Unit) (s : S) :
    attempt x s =
      match x s with
      | .ok _ s' => Res.ok true s'
      | .err .exn s' => Res.ok false s'
      | .err (.sysExit n) s' => Res.err (.sysExit n) s' := rfl

/-! ## Association-list filesystem lemmas -/

theorem lookupFile_cons (e : FPath × Content) (rest : FS) (p : FPath) :
    lookupFile (e :: rest) p = if e.1 = p then some e.2 else lookupFile rest p := rfl

theorem removeFile_cons (e : FPath × Content) (rest : FS) (q : FPath) :
    removeFile (e :: rest) q =
      if e.1 = q then removeFile rest q else e :: removeFile rest q := by
  by_cases h : e.1 = q <;> simp [removeFile, h]

theorem lookupFile_removeFile_self (fs : FS) (p : FPath) :
    lookupFile (removeFile fs p) p = none := by
  induction fs with
  | nil => rfl
  | cons e rest ih =>
      rw [removeFile_cons]
      by_cases h : e.1 = p
      · simpa [h] using ih
      · simpa [lookupFile_cons, h] using ih

theorem lookupFile_removeFile_ne (fs : FS) (p q : FPath) (h : p ≠ q) :
    lookupFile (removeFile fs q) p = lookupFile fs p := by
  induction fs with
  | nil => rfl
  | cons e rest ih =>
      rw [removeFile_cons]
      by_cases he : e.1 = q
      · have hqp : q ≠ p := fun hh => h hh.symm
        simpa [he, lookupFile_cons, hqp] using ih
      · by_cases hp : e.1 = p
        · simp [h, he, lookupFile_cons, hp]
        · simpa [h, he, lookupFile_cons, hp] using ih

theorem lookupFile_setFile_self (fs : FS) (p : FPath) (c : Content) :
    lookupFile (setFile fs p c) p = some c := by
  simp [setFile, lookupFile]

theorem lookupFile_setFile_ne (fs : FS) (p q : FPath) (c : Content) (h : p ≠ q) :
    lookupFile (setFile fs q c) p = lookupFile fs p := by
  have : q ≠ p := fun hh => h hh.symm
  simp [setFile, lookupFile, this, lookupFile_removeFile_ne fs p q h]

theorem lookupFile_removeFile_none (fs : FS) (p q : FPath)
    (h : lookupFile fs p = none) : lookupFile (removeFile fs q) p = none := by
  by_cases hpq : p = q
  · rw [hpq]; exact lookupFile_removeFile_self fs q
  · rw [lookupFile_removeFile_ne fs p q hpq]; exact h

/-! ## Behaviour of the compound pipeline stages -/

theorem writeWhisperOutputs_apply (stem : String) (l : List (String × Content)) (s : S) :
    writeWhisperOutputs stem l s =
      Res.ok () ⟨wwFiles stem l s.files, s.dirs, s.inp, s.trace ++ wwEvents stem l⟩ := by
  induction l generalizing s with
  | nil => simp [writeWhisperOutputs, wwFiles, wwEvents]
  | cons hd tl ih =>
      obtain ⟨ext, c⟩ := hd
      simp [writeWhisperOutputs, wwFiles, wwEvents, ih]

theorem moveOutputsLoop_apply (stem d : String) (exts : List String) (s : S) :
    moveOutputsLoop stem d exts s =
      Res.ok () ⟨moFiles stem d exts s.files, s.dirs, s.inp,
                 s.trace ++ moEvents stem d exts s.files⟩ := by
  induction exts generalizing s with
  | nil => simp [moveOutputsLoop, moFiles, moEvents]
  | cons ext rest ih =>
      cases h : lookupFile s.files (FPath.cwd ⟨stem, ext⟩) with
      | none => simp [moveOutputsLoop, moFiles, moEvents, replaceFileM, h, ih]
      | some c => simp [moveOutputsLoop, moFiles, moEvents, replaceFileM, h, ih]

theorem setup_logger_apply (log : Option FName) (s : S) :
    setup_logger log s =
      Res.ok () ⟨setupLoggerFiles log s.files, s.dirs, s.inp,
                 s.trace ++ setupLoggerEvents log s.files⟩ := by
  cases log with
  | none => simp [setup_logger, setupLoggerFiles, setupLoggerEvents]
  | some n =>
      cases h : lookupFile s.files (FPath.cwd n) <;>
        simp [setup_logger, setupLoggerFiles, setupLoggerEvents, h]

/-! ## What each stage does and does not touch -/

theorem lookupFile_wwFiles_sub (stem : String) (l : List (String × Content))
    (fs : FS) (d : String) (n : FName) :
    lookupFile (wwFiles stem l fs) (FPath.sub d n) = lookupFile fs (FPath.sub d n) := by
  induction l generalizing fs with
  | nil => rfl
  | cons hd tl ih =>
      obtain ⟨ext, c⟩ := hd
      rw [wwFiles, ih, lookupFile_setFile_ne]
      intro h
      exact FPath.noConfusion h

theorem lookupFile_moFiles_untouched (stem d : String) (exts : List String)
    (fs : FS) (p : FPath)
    (hc : ∀ e ∈ exts, p ≠ FPath.cwd ⟨stem, e⟩)
    (hs : ∀ e ∈ exts, p ≠ FPath.sub d ⟨stem, e⟩) :
    lookupFile (moFiles stem d exts fs) p = lookupFile fs p := by
  induction exts generalizing fs with
  | nil => rfl
  | cons ext rest ih =>
      have hc' : ∀ e ∈ rest, p ≠ FPath.cwd ⟨stem, e⟩ := fun e he => hc e (by simp [he])
      have hs' : ∀ e ∈ rest, p ≠ FPath.sub d ⟨stem, e⟩ := fun e he => hs e (by simp [he])
      cases h : lookupFile fs (FPath.cwd ⟨stem, ext⟩) with
      | none => rw [moFiles, h, ih fs hc' hs']
      | some c =>
          rw [moFiles, h, ih _ hc' hs',
            lookupFile_setFile_ne _ _ _ _ (hs ext (by simp)),
            lookupFile_removeFile_ne _ _ _ (hc ext (by simp))]

theorem lookupFile_moFiles_cwd_none (stem d : String) (exts : List String)
    (fs : FS) (n : FName) (h : lookupFile fs (FPath.cwd n) = none) :
    lookupFile (moFiles stem d exts fs) (FPath.cwd n) = none := by
  induction exts generalizing fs with
  | nil => exact h
  | cons ext rest ih =>
      cases hx : lookupFile fs (FPath.cwd ⟨stem, ext⟩) with
      | none => rw [moFiles, hx]; exact ih fs h
      | some c =>
          rw [moFiles, hx]
          refine ih _ ?_
          rw [lookupFile_setFile_ne _ _ _ _ (fun hh => FPath.noConfusion hh)]
          exact lookupFile_removeFile_none fs _ _ h

theorem lookupFile_moFiles_mem (stem d : String) (exts : List String)
    (fs : FS) (ext : String) (hm : ext ∈ exts) :
    lookupFile (moFiles stem d exts fs) (FPath.cwd ⟨stem, ext⟩) = none := by
  induction exts generalizing fs with
  | nil => cases hm
  | cons hd rest ih =>
      rcases List.mem_cons.mp hm with heq | htl
      · subst heq
        cases hx : lookupFile fs (FPath.cwd ⟨stem, ext⟩) with
        | none => rw [moFiles, hx]; exact lookupFile_moFiles_cwd_none _ _ _ _ _ hx
        | some c =>
            rw [moFiles, hx]
            refine lookupFile_moFiles_cwd_none _ _ _ _ _ ?_
            rw [lookupFile_setFile_ne _ _ _ _ (fun hh => FPath.noConfusion hh)]
            exact lookupFile_removeFile_self fs _
      · cases hx : lookupFile fs (FPath.cwd ⟨stem, hd⟩) with
        | none => rw [moFiles, hx]; exact ih fs htl
        | some c => rw [moFiles, hx]; exact ih _ htl

theorem pickSuffixed_fresh (fs : FS) (d b e : String) (fuel i : Nat) (dest : FPath)
    (h : pickSuffixed fs d b e fuel i = some dest) :
    lookupFile fs dest = none ∧
      ∃ j, i ≤ j ∧ dest = FPath.sub d ⟨b ++ "_" ++ toString j, e⟩ := by
  induction fuel generalizing i with
  | zero => simp [pickSuffixed] at h
  | succ fuel ih =>
      rw [pickSuffixed] at h
      by_cases hx : (lookupFile fs
          (FPath.sub d ⟨b ++ "_" ++ toString i, e⟩)).isSome = true
      · rw [if_pos hx] at h
        obtain ⟨h1, j, hj, h2⟩ := ih (i + 1) h
        exact ⟨h1, j, Nat.le_of_succ_le hj, h2⟩
      · rw [if_neg hx] at h
        injection h with h2
        subst h2
        refine ⟨?_, i, Nat.le_refl i, rfl⟩
        cases hl : lookupFile fs (FPath.sub d ⟨b ++ "_" ++ toString i, e⟩) with
        | none => rfl
        | some c => rw [hl] at hx; simp at hx

theorem mvDest_fresh (fs : FS) (video : FPath) (d : String) (dest : FPath)
    (h : mvDest fs video d = some dest) : lookupFile fs dest = none := by
  simp only [mvDest] at h
  by_cases hx : (lookupFile fs (FPath.sub d video.fname)).isSome = true
  · rw [if_pos hx] at h
    exact (pickSuffixed_fresh fs d _ _ _ _ dest h).1
  · rw [if_neg hx] at h
    injection h with h2
    subst h2
    cases hl : lookupFile fs (FPath.sub d video.fname) with
    | none => rfl
    | some c => rw [hl] at hx; simp at hx

theorem mvDest_suffix_form (fs : FS) (video : FPath) (d : String) (dest : FPath)
    (hex : (lookupFile fs (FPath.sub d video.fname)).isSome = true)
    (h : mvDest fs video d = some dest) :
    ∃ i, 1 ≤ i ∧
      dest = FPath.sub d ⟨video.fname.stem ++ "_" ++ toString i, video.fname.ext⟩ := by
  simp only [mvDest] at h
  rw [if_pos hex] at h
  obtain ⟨-, j, hj, h2⟩ := pickSuffixed_fresh fs d _ _ _ _ dest h
  exact ⟨j, hj, h2⟩

/-- Any destination `mvDest` picks is either the plain `target_dir / name` or
a numerically suffixed variant of it. -/
theorem mvDest_cases (fs : FS) (video : FPath) (d : String) (dest : FPath)
    (h : mvDest fs video d = some dest) :
    dest = FPath.sub d video.fname ∨
      ∃ i, 1 ≤ i ∧
        dest = FPath.sub d ⟨video.fname.stem ++ "_" ++ toString i, video.fname.ext⟩ := by
  by_cases hx : (lookupFile fs (FPath.sub d video.fname)).isSome = true
  · exact Or.inr (mvDest_suffix_form fs video d dest hx h)
  · simp only [mvDest] at h
    rw [if_neg hx] at h
    injection h with h2
    exact Or.inl h2.symm

theorem lookupFile_mvFiles_pre (fs : FS) (video : FPath) (d : String) (p : FPath)
    (c' : Content) (hne : p ≠ video) (h : lookupFile fs p = some c') :
    lookupFile (mvFiles fs video d) p = some c' := by
  unfold mvFiles
  cases hd : mvDest fs video d with
  | none => exact h
  | some dest =>
      cases hv : lookupFile fs video with
      | none => exact h
      | some c =>
          have hfresh := mvDest_fresh fs video d dest hd
          have hpd : p ≠ dest := fun hh => by rw [hh, hfresh] at h; cases h
          rw [lookupFile_setFile_ne _ _ _ _ hpd, lookupFile_removeFile_ne _ _ _ hne]
          exact h

theorem lookupFile_mvFiles_cwd_none (fs : FS) (video : FPath) (d : String) (n : FName)
    (h : lookupFile fs (FPath.cwd n) = none) :
    lookupFile (mvFiles fs video d) (FPath.cwd n) = none := by
  unfold mvFiles
  cases hd : mvDest fs video d with
  | none => exact h
  | some dest =>
      cases hv : lookupFile fs video with
      | none => exact h
      | some c =>
          have : FPath.cwd n ≠ dest := by
            intro hh
            rcases mvDest_cases fs video d dest hd with hform | ⟨i, -, hform⟩ <;>
              · rw [hform] at hh
                exact FPath.noConfusion hh
          rw [lookupFile_setFile_ne _ _ _ _ this]
          exact lookupFile_removeFile_none fs _ _ h

theorem lookupFile_mvFiles_other (fs : FS) (video : FPath) (d : String) (p : FPath)
    (h : lookupFile fs p = none)
    (hne0 : p ≠ FPath.sub d video.fname)
    (hnei : ∀ i : Nat,
      p ≠ FPath.sub d ⟨video.fname.stem ++ "_" ++ toString i, video.fname.ext⟩) :
    lookupFile (mvFiles fs video d) p = none := by
  unfold mvFiles
  cases hd : mvDest fs video d with
  | none => exact h
  | some dest =>
      cases hv : lookupFile fs video with
      | none => exact h
      | some c =>
          have hpd : p ≠ dest := by
            intro hh
            rcases mvDest_cases fs video d dest hd with hform | ⟨i, -, hform⟩
            · exact hne0 (hform ▸ hh)
            · exact hnei i (hform ▸ hh)
          rw [lookupFile_setFile_ne _ _ _ _ hpd]
          exact lookupFile_removeFile_none fs _ _ h

theorem move_video_into_dir_apply (video : FPath) (d : String) (s : S) :
    move_video_into_dir video d s =
      Res.ok (mvRet s.files video d)
        ⟨mvFiles s.files video d, s.dirs, s.inp,
         s.trace ++ mvEvents s.files video d⟩ := by
  unfold move_video_into_dir mvRet mvFiles mvEvents mvDest
  cases hp : (if (lookupFile s.files (FPath.sub d video.fname)).isSome then
      pickSuffixed s.files d video.fname.stem video.fname.ext (s.files.length + 1) 1
    else some (FPath.sub d video.fname)) with
  | none => simp [hp]
  | some dest =>
      cases hv : lookupFile s.files video with
      | none => simp [hp, hv]
      | some c => simp [hp, hv]

/-! ## Trace projections -/

@[simp] theorem execs_nil : execs [] = [] := rfl

@[simp] theorem execs_append (a b : List Event) : execs (a ++ b) = execs a ++ execs b :=
  List.filterMap_append a b _

@[simp] theorem prompts_nil : prompts [] = [] := rfl

@[simp] theorem prompts_append (a b : List Event) :
    prompts (a ++ b) = prompts a ++ prompts b :=
  List.filterMap_append a b _

@[simp] theorem execs_cons (e : Event) (t : List Event) :
    execs (e :: t) = (match e with | .exec c => [c] | _ => []) ++ execs t := by
  cases e <;> rfl

@[simp] theorem prompts_cons (e : Event) (t : List Event) :
    prompts (e :: t) = (match e with | .prompt p => [p] | _ => []) ++ prompts t := by
  cases e <;> rfl

theorem execs_wwEvents (stem : String) (l : List (String × Content)) :
    execs (wwEvents stem l) = [] := by
  induction l with
  | nil => rfl
  | cons hd tl ih => obtain ⟨ext, c⟩ := hd; simp [wwEvents, ih]

theorem prompts_wwEvents (stem : String) (l : List (String × Content)) :
    prompts (wwEvents stem l) = [] := by
  induction l with
  | nil => rfl
  | cons hd tl ih => obtain ⟨ext, c⟩ := hd; simp [wwEvents, ih]

theorem execs_moEvents (stem d : String) (exts : List String) (fs : FS) :
    execs (moEvents stem d exts fs) = [] := by
  induction exts generalizing fs with
  | nil => rfl
  | cons ext rest ih =>
      cases h : lookupFile fs (FPath.cwd ⟨stem, ext⟩) with
      | none => rw [moEvents, h]; exact ih fs
      | some c => rw [moEvents, h]; simpa using ih _

theorem prompts_moEvents (stem d : String) (exts : List String) (fs : FS) :
    prompts (moEvents stem d exts fs) = [] := by
  induction exts generalizing fs with
  | nil => rfl
  | cons ext rest ih =>
      cases h : lookupFile fs (FPath.cwd ⟨stem, ext⟩) with
      | none => rw [moEvents, h]; exact ih fs
      | some c => rw [moEvents, h]; simpa using ih _

theorem execs_mvEvents (fs : FS) (video : FPath) (d : String) :
    execs (mvEvents fs video d) = [] := by
  unfold mvEvents
  cases mvDest fs video d with
  | none => rfl
  | some dest => cases lookupFile fs video <;> simp

theorem prompts_mvEvents (fs : FS) (video : FPath) (d : String) :
    prompts (mvEvents fs video d) = [] := by
  unfold mvEvents
  cases mvDest fs video d with
  | none => rfl
  | some dest => cases lookupFile fs video <;> simp

theorem execs_setupLoggerEvents (log : Option FName) (fs : FS) :
    execs (setupLoggerEvents log fs) = [] := by
  cases log with
  | none => rfl
  | some n =>
      unfold setupLoggerEvents
      by_cases h : (lookupFile fs (FPath.cwd n)).isSome = true <;> simp [h]

theorem prompts_setupLoggerEvents (log : Option FName) (fs : FS) :
    prompts (setupLoggerEvents log fs) = [] := by
  cases log with
  | none => rfl
  | some n =>
      unfold setupLoggerEvents
      by_cases h : (lookupFile fs (FPath.cwd n)).isSome = true <;> simp [h]

theorem execs_pvEvents (tb : ToolBehavior) (videoR stem out_dir model : String)
    (language : Option String) (t clean : Bool) (fs : FS) :
    execs (pvEvents tb videoR stem out_dir model language t clean fs) =
      [ffmpegCmd videoR (wavPath out_dir stem).render,
       whisperCmd (wavPath out_dir stem).render model language t] := by
  simp only [pvEvents]
  by_cases h : (clean && (lookupFile
      (moFiles stem out_dir WHISPER_EXTS
        (wwFiles stem tb.whisperWrites
          (setFile fs (wavPath out_dir stem) (Content.raw tb.wavData))))
      (wavPath out_dir stem)).isSome) = true <;>
    simp [h, execs_wwEvents, execs_moEvents, ffmpegCmd, whisperCmd]

theorem prompts_pvEvents (tb : ToolBehavior) (videoR stem out_dir model : String)
    (language : Option String) (t clean : Bool) (fs : FS) :
    prompts (pvEvents tb videoR stem out_dir model language t clean fs) = [] := by
  simp only [pvEvents]
  by_cases h : (clean && (lookupFile
      (moFiles stem out_dir WHISPER_EXTS
        (wwFiles stem tb.whisperWrites
          (setFile fs (wavPath out_dir stem) (Content.raw tb.wavData))))
      (wavPath out_dir stem)).isSome) = true <;>
    simp [h, prompts_wwEvents, prompts_moEvents]

/-! ## The two paths of `process_video` -/

/-- The bypass path: when the subtitle output exists and either skip-if-exists
is on or overwrite is off, `process_video` touches nothing and returns the
result read from the existing artifacts, with `whisper_succeeded = True`. -/
theorem process_video_bypass (tb : ToolBehavior) (video : FPath) (model : String)
    (language : Option String) (t clean o sk : Bool) (out_dir : String) (s : S)
    (hsrt : (lookupFile s.files (srtPath out_dir video.fname.stem)).isSome = true)
    (hby : sk = true ∨ o = false) :
    process_video tb video model language t clean o sk out_dir s =
      Res.ok ⟨video, wavPath out_dir video.fname.stem, srtPath out_dir video.fname.stem,
              find_detected_language s.files (FPath.sub out_dir ⟨video.fname.stem, ""⟩),
              0, true⟩ s := by
  rcases hby with h | h
  · subst h
    simp [process_video, bypassResult, wavPath, srtPath] at hsrt ⊢
    simp [hsrt]
  · subst h
    cases sk with
    | true =>
        simp [process_video, bypassResult, wavPath, srtPath] at hsrt ⊢
        simp [hsrt]
    | false =>
        simp [process_video, bypassResult, wavPath, srtPath] at hsrt ⊢
        simp [hsrt]

/-- The working path: when the bypass does not trigger and ffmpeg succeeds,
`process_video` runs extraction then transcription, relocates outputs, cleans
up the wav per the clean flag, and records whisper's exit status. -/
theorem process_video_run (tb : ToolBehavior) (video : FPath) (model : String)
    (language : Option String) (t clean o sk : Bool) (out_dir : String) (s : S)
    (hff : tb.ffmpegOk = true)
    (h1 : ((lookupFile s.files (srtPath out_dir video.fname.stem)).isSome && sk) = false)
    (h2 : ((lookupFile s.files (srtPath out_dir video.fname.stem)).isSome && !o) = false) :
    process_video tb video model language t clean o sk out_dir s =
      Res.ok ⟨video, wavPath out_dir video.fname.stem, srtPath out_dir video.fname.stem,
              find_detected_language (pvFiles tb video.fname.stem out_dir clean s.files)
                (FPath.sub out_dir ⟨video.fname.stem, ""⟩),
              0, tb.whisperOk⟩
        ⟨pvFiles tb video.fname.stem out_dir clean s.files, s.dirs, s.inp,
         s.trace ++ pvEvents tb video.render video.fname.stem out_dir model
           language t clean s.files⟩ := by
  simp only [srtPath] at h1 h2
  have hc1 : ¬((lookupFile s.files
      (FPath.sub out_dir ⟨video.fname.stem, ".srt"⟩)).isSome = true ∧ sk = true) := by
    rintro ⟨ha, hb⟩
    rw [ha, hb] at h1
    simp at h1
  have hc2 : ¬((lookupFile s.files
      (FPath.sub out_dir ⟨video.fname.stem, ".srt"⟩)).isSome = true ∧ o = false) := by
    rintro ⟨ha, hb⟩
    rw [ha, hb] at h2
    simp at h2
  cases hw : tb.whisperOk <;>
    · simp [process_video, extract_audio, run_whisper, move_whisper_outputs,
        pvFiles, pvEvents, wavPath, srtPath, hff, hw, hc1, hc2,
        writeWhisperOutputs_apply, moveOutputsLoop_apply, List.append_assoc]
      split
      next hsp =>
        simp [hsp, unlinkFileM, List.append_assoc]
      next hsp =>
        simp [hsp, List.append_assoc]

/-! ## Helpers for whole-run reasoning -/

theorem pyStrip_empty : pyStrip "" = "" := by decide

theorem pyLower_empty : pyLower "" = "" := by decide

/-- `yes_no` answered with a blank line returns the default. -/
theorem yes_no_default_empty (p : String) (dflt : Bool) (f : FS) (dd : List String)
    (rest : List String) (tr : List Event) :
    yes_no p dflt ⟨f, dd, "" :: rest, tr⟩ =
      Res.ok dflt ⟨f, dd, rest, tr ++ [Event.prompt p]⟩ := by
  simp [yes_no, yesNoGo, parseYesNo, pyStrip_empty, pyLower_empty]

/-- Attaching the log handler never touches files inside a subdirectory. -/
theorem lookupFile_setupLoggerFiles_sub (log : Option FName) (fs : FS)
    (d : String) (n : FName) :
    lookupFile (setupLoggerFiles log fs) (FPath.sub d n) =
      lookupFile fs (FPath.sub d n) := by
  cases log with
  | none => rfl
  | some nm =>
      unfold setupLoggerFiles
      by_cases h : (lookupFile fs (FPath.cwd nm)).isSome = true
      · simp [h]
      · have hne : FPath.sub d n ≠ FPath.cwd nm := fun hh => by cases hh
        simp [h, lookupFile_setFile_ne _ _ _ _ hne]

/-- A stem with a numeric suffix attached is a different string. -/
theorem stem_suffix_ne (a b : String) : a ++ "_" ++ b ≠ a := by
  intro h
  have h2 := congrArg String.length h
  rw [String.length_append, String.length_append] at h2
  have h3 : ("_" : String).length = 1 := rfl
  rw [h3] at h2
  omega

/-- With stdin not a tty and the model and language flags supplied, the whole
configuration phase resolves every field from its flag or hard-coded default
and issues no prompt (lines 284–306 only create the output directory). -/
theorem collectConfig_noninteractive (env : Env) (args : Args) (s : S) (m l : String)
    (htty : env.isatty = false) (hm : args.model = some m)
    (hl : args.language = some l) :
    collectConfig env args s =
      Res.ok ⟨m, some l, args.translate_to_en, !args.no_clean, !args.no_overwrite,
              !args.no_skip, args.video.stem⟩
        { s with dirs := if args.video.stem ∈ s.dirs then s.dirs
                         else s.dirs ++ [args.video.stem],
                 trace := s.trace ++ [Event.mkdirp args.video.stem] } := by
  cases htr : args.translate_to_en <;> simp [collectConfig, hm, hl, htty, htr]

/-! ## Claims -/

/-- Claim C1: when the expected subtitle output already exists and
skip-if-exists is enabled, `process_video` returns immediately with the state
untouched — so neither ffmpeg nor whisper is invoked — and the returned
detected language is exactly what `find_detected_language` reads from the
companion JSON artifact already on disk. -/
theorem skip_if_exists_bypasses_tools (tb : ToolBehavior) (video : FPath)
    (model : String) (language : Option String) (t clean o : Bool)
    (out_dir : String) (s : S)
    (hsrt : (lookupFile s.files (srtPath out_dir video.fname.stem)).isSome = true) :
    process_video tb video model language t clean o true out_dir s =
      Res.ok ⟨video, wavPath out_dir video.fname.stem,
              srtPath out_dir video.fname.stem,
              find_detected_language s.files (FPath.sub out_dir ⟨video.fname.stem, ""⟩),
              0, true⟩ s :=
  process_video_bypass tb video model language t clean o true out_dir s hsrt (Or.inl rfl)

/-- Witness for C1: in the sample skip state the pipeline returns at once
with the language read from the existing `demo.json` (English). -/
theorem skip_if_exists_bypasses_tools_check :
    process_video demoTB (FPath.cwd demoVid) "small" (some "fr") false true true
        true "demo" demoSkipS =
      Res.ok ⟨FPath.cwd demoVid, wavPath "demo" "demo", srtPath "demo" "demo",
              some (JVal.jstr "en"), 0, true⟩ demoSkipS := by
  have h := skip_if_exists_bypasses_tools demoTB (FPath.cwd demoVid) "small"
    (some "fr") false true true "demo" demoSkipS (by decide)
  rw [h]
  rfl

/-- Claim C10 (implicit): both bypass paths — skip-if-exists enabled, or
overwrite disabled — return a `RunResult` with `whisper_succeeded = True`
even though no transcription ran in this invocation (the state, hence the
trace of tool invocations, is unchanged). -/
theorem bypass_reports_whisper_success (tb : ToolBehavior) (video : FPath)
    (model : String) (language : Option String) (t clean o sk : Bool)
    (out_dir : String) (s : S)
    (hsrt : (lookupFile s.files (srtPath out_dir video.fname.stem)).isSome = true)
    (hby : sk = true ∨ o = false) :
    process_video tb video model language t clean o sk out_dir s =
      Res.ok ⟨video, wavPath out_dir video.fname.stem,
              srtPath out_dir video.fname.stem,
              find_detected_language s.files (FPath.sub out_dir ⟨video.fname.stem, ""⟩),
              0, true⟩ s :=
  process_video_bypass tb video model language t clean o sk out_dir s hsrt hby

/-- Witness for C10: the overwrite-disabled bypass (skip disabled too) also
reports a successful transcription. -/
theorem bypass_reports_whisper_success_check :
    process_video demoTB (FPath.cwd demoVid) "small" (some "fr") false true
        false false "demo" demoSkipS =
      Res.ok ⟨FPath.cwd demoVid, wavPath "demo" "demo", srtPath "demo" "demo",
              some (JVal.jstr "en"), 0, true⟩ demoSkipS := by
  have h := bypass_reports_whisper_success demoTB (FPath.cwd demoVid) "small"
    (some "fr") false true false false "demo" demoSkipS (by decide) (Or.inr rfl)
  rw [h]
  rfl

/-- Claim C5: with the subtitle output present, overwrite enabled and
skip-if-exists disabled, `process_video` re-invokes both tools, ffmpeg first;
and when skip-if-exists is also enabled it takes precedence and the run
invokes nothing (the state is returned untouched). -/
theorem overwrite_reruns_tools_skip_precedence (tb : ToolBehavior) (video : FPath)
    (model : String) (language : Option String) (t clean : Bool)
    (out_dir : String) (s : S) (ctn : Content)
    (hff : tb.ffmpegOk = true)
    (hsrt : lookupFile s.files (srtPath out_dir video.fname.stem) = some ctn) :
    (∃ r s', process_video tb video model language t clean true false out_dir s =
        Res.ok r s' ∧
      execs s'.trace = execs s.trace ++
        [ffmpegCmd video.render (wavPath out_dir video.fname.stem).render,
         whisperCmd (wavPath out_dir video.fname.stem).render model language t]) ∧
    process_video tb video model language t clean true true out_dir s =
      Res.ok ⟨video, wavPath out_dir video.fname.stem,
              srtPath out_dir video.fname.stem,
              find_detected_language s.files (FPath.sub out_dir ⟨video.fname.stem, ""⟩),
              0, true⟩ s := by
  constructor
  · refine ⟨_, _, process_video_run tb video model language t clean true false
      out_dir s hff (by simp) (by simp), ?_⟩
    simp [execs_pvEvents]
  · exact process_video_bypass tb video model language t clean true true out_dir s
      (by rw [hsrt]; rfl) (Or.inl rfl)

/-- Witness for C5: concrete rerun over the sample skip state. -/
theorem overwrite_reruns_tools_skip_precedence_check :
    (∃ r s', process_video demoTB (FPath.cwd demoVid) "small" (some "fr") false
        true true false "demo" demoSkipS = Res.ok r s' ∧
      execs s'.trace = execs demoSkipS.trace ++
        [ffmpegCmd (FPath.cwd demoVid).render (wavPath "demo" "demo").render,
         whisperCmd (wavPath "demo" "demo").render "small" (some "fr") false]) ∧
    process_video demoTB (FPath.cwd demoVid) "small" (some "fr") false true
        true true "demo" demoSkipS =
      Res.ok ⟨FPath.cwd demoVid, wavPath "demo" "demo", srtPath "demo" "demo",
              find_detected_language demoSkipS.files (FPath.sub "demo" ⟨"demo", ""⟩),
              0, true⟩ demoSkipS :=
  overwrite_reruns_tools_skip_precedence demoTB (FPath.cwd demoVid) "small"
    (some "fr") false true "demo" demoSkipS (Content.raw "old subs") rfl (by decide)

/-- Claim C7: on any non-bypass run with ffmpeg succeeding, the transcoder is
invoked with exactly the fixed argument vector (banner suppressed, error-only
logging, 16000 Hz, 1 channel, `pcm_s16le`) and this invocation precedes the
whisper invocation in the subprocess trace. -/
theorem ffmpeg_fixed_profile_before_whisper (tb : ToolBehavior) (video : FPath)
    (model : String) (language : Option String) (t clean o sk : Bool)
    (out_dir : String) (s : S)
    (hff : tb.ffmpegOk = true)
    (hby : (lookupFile s.files (srtPath out_dir video.fname.stem)).isSome = true →
      sk = false ∧ o = true) :
    ∃ r s', process_video tb video model language t clean o sk out_dir s =
        Res.ok r s' ∧
      execs s'.trace = execs s.trace ++
        [["ffmpeg", "-hide_banner", "-loglevel", "error", "-i", video.render,
          "-ar", "16000", "-ac", "1", "-c:a", "pcm_s16le",
          (wavPath out_dir video.fname.stem).render],
         whisperCmd (wavPath out_dir video.fname.stem).render model language t] := by
  have h1 : ((lookupFile s.files (srtPath out_dir video.fname.stem)).isSome && sk)
      = false := by
    cases hx : (lookupFile s.files (srtPath out_dir video.fname.stem)).isSome with
    | false => rfl
    | true => rw [(hby hx).1]; rfl
  have h2 : ((lookupFile s.files (srtPath out_dir video.fname.stem)).isSome && !o)
      = false := by
    cases hx : (lookupFile s.files (srtPath out_dir video.fname.stem)).isSome with
    | false => rfl
    | true => rw [(hby hx).2]; rfl
  refine ⟨_, _, process_video_run tb video model language t clean o sk out_dir s
    hff h1 h2, ?_⟩
  simp [execs_pvEvents, ffmpegCmd]

/-- Witness for C7: concrete fresh run on the sample state. -/
theorem ffmpeg_fixed_profile_before_whisper_check :
    ∃ r s', process_video demoTB (FPath.cwd demoVid) "small" (some "fr") false
        true true true "demo" demoS = Res.ok r s' ∧
      execs s'.trace = execs demoS.trace ++
        [["ffmpeg", "-hide_banner", "-loglevel", "error", "-i",
          (FPath.cwd demoVid).render, "-ar", "16000", "-ac", "1", "-c:a",
          "pcm_s16le", (wavPath "demo" "demo").render],
         whisperCmd (wavPath "demo" "demo").render "small" (some "fr") false] :=
  ffmpeg_fixed_profile_before_whisper demoTB (FPath.cwd demoVid) "small"
    (some "fr") false true true true "demo" demoS rfl (by intro h; cases h)

/-- Claim C6: on a run that performs extraction with ffmpeg succeeding, the
intermediate wav artifact is gone when `process_video` returns if the clean
flag is set, and still present (with the extracted audio) if it is not. -/
theorem clean_flag_controls_wav_persistence (tb : ToolBehavior) (video : FPath)
    (model : String) (language : Option String) (t o sk clean : Bool)
    (out_dir : String) (s : S)
    (hff : tb.ffmpegOk = true)
    (hsrt : lookupFile s.files (srtPath out_dir video.fname.stem) = none) :
    ∃ r s', process_video tb video model language t clean o sk out_dir s =
        Res.ok r s' ∧
      (clean = true →
        lookupFile s'.files (wavPath out_dir video.fname.stem) = none) ∧
      (clean = false →
        lookupFile s'.files (wavPath out_dir video.fname.stem) =
          some (Content.raw tb.wavData)) := by
  have h1 : ((lookupFile s.files (srtPath out_dir video.fname.stem)).isSome && sk)
      = false := by rw [hsrt]; rfl
  have h2 : ((lookupFile s.files (srtPath out_dir video.fname.stem)).isSome && !o)
      = false := by rw [hsrt]; rfl
  refine ⟨_, _, process_video_run tb video model language t clean o sk out_dir s
    hff h1 h2, ?_, ?_⟩ <;>
    · intro hcl
      subst hcl
      have hc : ∀ e ∈ WHISPER_EXTS,
          wavPath out_dir video.fname.stem ≠ FPath.cwd ⟨video.fname.stem, e⟩ := by
        intro e he h
        exact FPath.noConfusion h
      have hs : ∀ e ∈ WHISPER_EXTS,
          wavPath out_dir video.fname.stem ≠
            FPath.sub out_dir ⟨video.fname.stem, e⟩ := by
        intro e he
        simp only [WHISPER_EXTS, List.mem_cons, List.mem_singleton] at he
        rcases he with rfl | rfl | rfl | rfl | rfl | h
        · simp [wavPath]
        · simp [wavPath]
        · simp [wavPath]
        · simp [wavPath]
        · simp [wavPath]
        · cases h
      have hwav3 : lookupFile
          (moFiles video.fname.stem out_dir WHISPER_EXTS
            (wwFiles video.fname.stem tb.whisperWrites
              (setFile s.files (wavPath out_dir video.fname.stem)
                (Content.raw tb.wavData))))
          (wavPath out_dir video.fname.stem) = some (Content.raw tb.wavData) := by
        rw [lookupFile_moFiles_untouched _ _ _ _ _ hc hs]
        rw [wavPath, lookupFile_wwFiles_sub, ← wavPath, lookupFile_setFile_self]
      simp only [pvFiles]
      rw [hwav3]
      simp [lookupFile_removeFile_self, hwav3]

/-- Witness for C6: with the clean flag set, the sample run deletes the wav. -/
theorem clean_flag_controls_wav_persistence_check :
    ∃ r s', process_video demoTB (FPath.cwd demoVid) "small" (some "fr") false
        true true true "demo" demoS = Res.ok r s' ∧
      (true = true → lookupFile s'.files (wavPath "demo" "demo") = none) ∧
      (true = false → lookupFile s'.files (wavPath "demo" "demo") =
        some (Content.raw demoTB.wavData)) :=
  clean_flag_controls_wav_persistence demoTB (FPath.cwd demoVid) "small"
    (some "fr") false true true true "demo" demoS rfl rfl

/-- Claim C4: `move_video_into_dir` never overwrites a pre-existing file:
every file other than the moved source keeps its content, and when the plain
destination name is taken any destination actually chosen is a fresh
`stem_i + extension` name (`i ≥ 1`) that does not exist in the directory (the
returned path can also be the original source path, when the move fell back
without touching anything). -/
theorem move_video_never_overwrites (s : S) (video : FPath) (d : String) :
    ∃ ret s', move_video_into_dir video d s = Res.ok ret s' ∧
      s'.dirs = s.dirs ∧ s'.inp = s.inp ∧
      (∀ p c', p ≠ video → lookupFile s.files p = some c' →
        lookupFile s'.files p = some c') ∧
      ((lookupFile s.files (FPath.sub d video.fname)).isSome = true →
        ret = video ∨
        (lookupFile s.files ret = none ∧
         ∃ i, 1 ≤ i ∧
           ret = FPath.sub d
             ⟨video.fname.stem ++ "_" ++ toString i, video.fname.ext⟩)) := by
  refine ⟨_, _, move_video_into_dir_apply video d s, rfl, rfl, ?_, ?_⟩
  · intro p c' hne h
    exact lookupFile_mvFiles_pre s.files video d p c' hne h
  · intro hex
    unfold mvRet
    cases hd : mvDest s.files video d with
    | none => exact Or.inl rfl
    | some dest =>
        cases hv : lookupFile s.files video with
        | none => exact Or.inl rfl
        | some c =>
            exact Or.inr ⟨mvDest_fresh _ _ _ _ hd, mvDest_suffix_form _ _ _ _ hex hd⟩

/-- Witness for C4: with `demo.mp4` and `demo_1.mp4` both already present in
the output directory, the unrelated files keep their contents and the chosen
destination is a fresh suffixed name. -/
theorem move_video_never_overwrites_check :
    ∃ ret s', move_video_into_dir (FPath.cwd demoVid) "demo" demoCollideS =
        Res.ok ret s' ∧
      s'.dirs = demoCollideS.dirs ∧ s'.inp = demoCollideS.inp ∧
      (∀ p c', p ≠ FPath.cwd demoVid → lookupFile demoCollideS.files p = some c' →
        lookupFile s'.files p = some c') ∧
      ((lookupFile demoCollideS.files
          (FPath.sub "demo" (FPath.cwd demoVid).fname)).isSome = true →
        ret = FPath.cwd demoVid ∨
        (lookupFile demoCollideS.files ret = none ∧
         ∃ i, 1 ≤ i ∧
           ret = FPath.sub "demo"
             ⟨(FPath.cwd demoVid).fname.stem ++ "_" ++ toString i,
              (FPath.cwd demoVid).fname.ext⟩)) :=
  move_video_never_overwrites demoCollideS (FPath.cwd demoVid) "demo"

/-- Claim C9: when the companion JSON artifact is absent, unparseable, not an
object, or an object carrying neither `language` nor `language_detected`,
`find_detected_language` returns no language (it is a total function: the
underlying exceptions are swallowed inside it), and the reporter renders that
as "Unknown". -/
theorem malformed_companion_json_yields_none (files : FS) (d stem : String)
    (hcase : lookupFile files (FPath.sub d ⟨stem, ".json"⟩) = none ∨
      lookupFile files (FPath.sub d ⟨stem, ".json"⟩) = some Content.invalid ∨
      lookupFile files (FPath.sub d ⟨stem, ".json"⟩) = some Content.jsonOther ∨
      (∃ b, lookupFile files (FPath.sub d ⟨stem, ".json"⟩) = some (Content.raw b)) ∨
      (∃ fields, lookupFile files (FPath.sub d ⟨stem, ".json"⟩) =
          some (Content.jsonDict fields) ∧
        dictGet fields "language" = none ∧
        dictGet fields "language_detected" = none)) :
    find_detected_language files (FPath.sub d ⟨stem, ""⟩) = none ∧
      displayLanguage (find_detected_language files (FPath.sub d ⟨stem, ""⟩)) =
        "Unknown" := by
  have hnone : find_detected_language files (FPath.sub d ⟨stem, ""⟩) = none := by
    rcases hcase with h | h | h | ⟨b, h⟩ | ⟨fields, h, h1, h2⟩ <;>
      simp [find_detected_language, FPath.withSuffix, pyOr, pyTruthy, *]
  exact ⟨hnone, by rw [hnone]; rfl⟩

/-- Witness for C9: a companion file holding unparseable bytes yields no
language and an "Unknown" report. -/
theorem malformed_companion_json_yields_none_check :
    find_detected_language [(FPath.sub "demo" ⟨"demo", ".json"⟩, Content.invalid)]
        (FPath.sub "demo" ⟨"demo", ""⟩) = none ∧
      displayLanguage (find_detected_language
        [(FPath.sub "demo" ⟨"demo", ".json"⟩, Content.invalid)]
        (FPath.sub "demo" ⟨"demo", ""⟩)) = "Unknown" :=
  malformed_companion_json_yields_none
    [(FPath.sub "demo" ⟨"demo", ".json"⟩, Content.invalid)] "demo" "demo"
    (Or.inr (Or.inl (by decide)))

/-- After the working path of `process_video`, every expected whisper output
name is gone from the working directory (relocated into the output dir). -/
theorem lookupFile_pvFiles_cwd (tb : ToolBehavior) (stem out_dir : String)
    (clean : Bool) (fs : FS) (e : String) (he : e ∈ WHISPER_EXTS) :
    lookupFile (pvFiles tb stem out_dir clean fs) (FPath.cwd ⟨stem, e⟩) = none := by
  have h3 : lookupFile
      (moFiles stem out_dir WHISPER_EXTS
        (wwFiles stem tb.whisperWrites
          (setFile fs (wavPath out_dir stem) (Content.raw tb.wavData))))
      (FPath.cwd ⟨stem, e⟩) = none :=
    lookupFile_moFiles_mem stem out_dir WHISPER_EXTS _ e he
  simp only [pvFiles]
  split
  · exact lookupFile_removeFile_none _ _ _ h3
  · exact h3

/-- With the clean flag set, the working path of `process_video` leaves no
wav artifact behind. -/
theorem lookupFile_pvFiles_wav_clean (tb : ToolBehavior) (stem out_dir : String)
    (fs : FS) :
    lookupFile (pvFiles tb stem out_dir true fs) (wavPath out_dir stem) = none := by
  have hc : ∀ e ∈ WHISPER_EXTS, wavPath out_dir stem ≠ FPath.cwd ⟨stem, e⟩ := by
    intro e he h
    cases h
  have hs : ∀ e ∈ WHISPER_EXTS, wavPath out_dir stem ≠ FPath.sub out_dir ⟨stem, e⟩ := by
    intro e he
    simp only [WHISPER_EXTS, List.mem_cons, List.mem_singleton] at he
    rcases he with rfl | rfl | rfl | rfl | rfl | h
    · simp [wavPath]
    · simp [wavPath]
    · simp [wavPath]
    · simp [wavPath]
    · simp [wavPath]
    · cases h
  have hwav3 : lookupFile
      (moFiles stem out_dir WHISPER_EXTS
        (wwFiles stem tb.whisperWrites
          (setFile fs (wavPath out_dir stem) (Content.raw tb.wavData))))
      (wavPath out_dir stem) = some (Content.raw tb.wavData) := by
    rw [lookupFile_moFiles_untouched _ _ _ _ _ hc hs]
    rw [wavPath, lookupFile_wwFiles_sub, ← wavPath, lookupFile_setFile_self]
  simp only [pvFiles]
  rw [hwav3]
  simp [lookupFile_removeFile_self]

/-- Claim C3: a failing whisper invocation is non-fatal: the run records
`whisper_succeeded = false` in the reported summary, still relocates the tool
outputs out of the working directory and removes the wav per the clean flag,
and the process exits 0.  The subprocess trace shows the pipeline did reach
the transcription stage. -/
theorem whisper_failure_nonfatal (env : Env) (args : Args) (s0 : S) (m l : String)
    (htty : env.isatty = false)
    (hffF : env.ffmpegFound = true) (hwhF : env.whisperFound = true)
    (hffok : env.tb.ffmpegOk = true) (hwok : env.tb.whisperOk = false)
    (hm : args.model = some m) (hl : args.language = some l)
    (hnc : args.no_clean = false)
    (hext : args.video.ext ≠ ".wav")
    (hv : (lookupFile (setupLoggerFiles args.log s0.files)
      (FPath.cwd args.video)).isSome = true)
    (hsrt : lookupFile s0.files
      (srtPath args.video.stem args.video.stem) = none)
    (hinp : s0.inp = [""]) :
    (runMain env args s0).1 = 0 ∧
    (∃ b lg, Event.summary b lg false ∈ (runMain env args s0).2.trace) ∧
    execs (runMain env args s0).2.trace = execs s0.trace ++
      [ffmpegCmd (FPath.cwd args.video).render
        (wavPath args.video.stem args.video.stem).render,
       whisperCmd (wavPath args.video.stem args.video.stem).render m (some l)
         args.translate_to_en] ∧
    lookupFile (runMain env args s0).2.files
      (wavPath args.video.stem args.video.stem) = none ∧
    (∀ e ∈ WHISPER_EXTS,
      lookupFile (runMain env args s0).2.files
        (FPath.cwd ⟨args.video.stem, e⟩) = none) := by
  have hcc := fun s => collectConfig_noninteractive env args s m l htty hm hl
  have hsrtF : lookupFile (setupLoggerFiles args.log s0.files)
      (srtPath args.video.stem args.video.stem) = none := by
    rw [srtPath, lookupFile_setupLoggerFiles_sub, ← srtPath]
    exact hsrt
  have h1 : ((lookupFile (setupLoggerFiles args.log s0.files)
      (srtPath args.video.stem args.video.stem)).isSome && (!args.no_skip)) = false := by
    rw [hsrtF]; rfl
  have h2 : ((lookupFile (setupLoggerFiles args.log s0.files)
      (srtPath args.video.stem args.video.stem)).isSome && !(!args.no_overwrite)) = false := by
    rw [hsrtF]; rfl
  have hpv := fun (dd ii : List String) (tr : List Event) =>
    process_video_run env.tb (FPath.cwd args.video) m (some l) args.translate_to_en
      true (!args.no_overwrite) (!args.no_skip) args.video.stem
      ⟨setupLoggerFiles args.log s0.files, dd, ii, tr⟩ hffok h1 h2
  simp [runMain, mainTry, setup_logger_apply, hv, hinp, hcc, check_tools,
    hffF, hwhF, hnc, hpv, move_video_into_dir_apply, yes_no_default_empty,
    FPath.fname, hwok, apply_ite, execs_setupLoggerEvents, execs_pvEvents,
    execs_mvEvents]
  refine ⟨?_, ?_, ?_⟩
  · cases hb : lookupFile
        (mvFiles (pvFiles env.tb args.video.stem args.video.stem true
          (setupLoggerFiles args.log s0.files)) (FPath.cwd args.video) args.video.stem)
        (srtPath args.video.stem args.video.stem) with
    | none => exact Or.inl ⟨_, Or.inr (Or.inr (Or.inr (Or.inr ⟨rfl, rfl⟩)))⟩
    | some c =>
        exact Or.inr ⟨_, Or.inr (Or.inr (Or.inr (Or.inr ⟨rfl, rfl⟩)))⟩
  · refine lookupFile_mvFiles_other _ _ _ _ ?_ ?_ ?_
    · exact lookupFile_pvFiles_wav_clean env.tb _ _ _
    · intro hh
      have he2 : ".wav" = args.video.ext := congrArg (fun p => p.fname.ext) hh
      exact hext he2.symm
    · intro i hh
      have hs2 : args.video.stem = args.video.stem ++ "_" ++ toString i :=
        congrArg (fun p => p.fname.stem) hh
      exact stem_suffix_ne _ _ hs2.symm
  · intro e he
    exact lookupFile_mvFiles_cwd_none _ _ _ _
      (lookupFile_pvFiles_cwd env.tb _ _ true _ e he)

/-- Witness for C3: a concrete run in which whisper exits non-zero still
finishes with exit code 0, reports the failure in its summary, and has
invoked ffmpeg then whisper. -/
theorem whisper_failure_nonfatal_check :
    (runMain demoEnvWhisperFail demoArgs demoS).1 = 0 ∧
    (∃ b lg, Event.summary b lg false ∈
      (runMain demoEnvWhisperFail demoArgs demoS).2.trace) ∧
    execs (runMain demoEnvWhisperFail demoArgs demoS).2.trace =
      execs demoS.trace ++
        [ffmpegCmd (FPath.cwd demoArgs.video).render
          (wavPath demoArgs.video.stem demoArgs.video.stem).render,
         whisperCmd (wavPath demoArgs.video.stem demoArgs.video.stem).render
           "small" (some "fr") demoArgs.translate_to_en] ∧
    lookupFile (runMain demoEnvWhisperFail demoArgs demoS).2.files
      (wavPath demoArgs.video.stem demoArgs.video.stem) = none ∧
    (∀ e ∈ WHISPER_EXTS,
      lookupFile (runMain demoEnvWhisperFail demoArgs demoS).2.files
        (FPath.cwd ⟨demoArgs.video.stem, e⟩) = none) :=
  whisper_failure_nonfatal demoEnvWhisperFail demoArgs demoS "small" "fr"
    rfl rfl rfl rfl rfl rfl rfl rfl (by decide) (by decide) (by decide) rfl

/-- Claim C8 (amended): when stdin is not a tty, the clean, overwrite, skip,
translate and output-directory fields are resolved from their flags or
hard-coded defaults without prompting, and with the model-size and
source-language flags supplied the configuration phase issues no prompt at
all; the model-size and source-language prompts, however, are not gated on
the terminal check (see the counterexample). -/
theorem noninteractive_flags_resolve_without_prompts (env : Env) (args : Args)
    (s : S) (m l : String)
    (htty : env.isatty = false) (hm : args.model = some m)
    (hl : args.language = some l) :
    ∃ s', collectConfig env args s =
        Res.ok ⟨m, some l, args.translate_to_en, !args.no_clean,
                !args.no_overwrite, !args.no_skip, args.video.stem⟩ s' ∧
      prompts s'.trace = prompts s.trace ∧ s'.inp = s.inp ∧ s'.files = s.files := by
  refine ⟨_, collectConfig_noninteractive env args s m l htty hm hl, ?_, rfl, rfl⟩
  simp

/-- Witness for C8: the fully flag-driven sample configuration resolves with
no prompt. -/
theorem noninteractive_flags_resolve_without_prompts_check :
    ∃ s', collectConfig demoEnv demoArgs demoS =
        Res.ok ⟨"small", some "fr", false, true, true, true, "demo"⟩ s' ∧
      prompts s'.trace = prompts demoS.trace ∧ s'.inp = demoS.inp ∧
      s'.files = demoS.files :=
  noninteractive_flags_resolve_without_prompts demoEnv demoArgs demoS "small" "fr"
    rfl rfl rfl

/-- Counterexample for C8: in a non-interactive run without a model flag the
model-size prompt is still issued, and the field is resolved from the typed
reply ("1", i.e. "tiny") rather than from the hard-coded default "small". -/
theorem noninteractive_model_prompt_issued :
    demoEnv.isatty = false ∧ demoArgsNoModel.model = none ∧
    ∃ cfg s', collectConfig demoEnv demoArgsNoModel demoSModelReply =
        Res.ok cfg s' ∧ cfg.model = "tiny" ∧
      Event.prompt "Choose Whisper model size:" ∈ s'.trace := by
  refine ⟨rfl, rfl, ⟨"tiny", some "fr", false, true, true, true, "demo"⟩,
    ⟨[(FPath.cwd demoVid, Content.raw "videobytes")], ["demo"], [""],
     [Event.prompt "Choose Whisper model size:", Event.mkdirp "demo"]⟩,
    ?_, rfl, ?_⟩
  · rfl
  · simp

/-- Claim C2 (amended): with a required tool missing from the search path (in
a non-interactive, flag-driven run) the process exits with code 1 and invokes
no external tool, and the only filesystem effects of the whole run are the
pre-check ones: creating the output directory, and creating the log file when
one was requested — both happen before the tool-availability check. -/
theorem missing_tool_exits_nonzero_after_mkdir (env : Env) (args : Args)
    (s0 : S) (m l : String)
    (htool : (env.ffmpegFound && env.whisperFound) = false)
    (htty : env.isatty = false)
    (hm : args.model = some m) (hl : args.language = some l)
    (hv : (lookupFile (setupLoggerFiles args.log s0.files)
      (FPath.cwd args.video)).isSome = true)
    (hinp : s0.inp = [""]) :
    (runMain env args s0).1 = 1 ∧
    (runMain env args s0).2.files = setupLoggerFiles args.log s0.files ∧
    (runMain env args s0).2.dirs =
      (if args.video.stem ∈ s0.dirs then s0.dirs
       else s0.dirs ++ [args.video.stem]) ∧
    execs (runMain env args s0).2.trace = execs s0.trace := by
  have hcc := fun s => collectConfig_noninteractive env args s m l htty hm hl
  simp [runMain, mainTry, setup_logger_apply, hv, hinp, hcc, check_tools, htool,
    yes_no_default_empty, execs_setupLoggerEvents]

/-- Witness for C2's amended theorem: concrete run with ffmpeg missing. -/
theorem missing_tool_exits_nonzero_after_mkdir_check :
    (runMain demoEnvNoFfmpeg demoArgs demoS).1 = 1 ∧
    (runMain demoEnvNoFfmpeg demoArgs demoS).2.files =
      setupLoggerFiles demoArgs.log demoS.files ∧
    (runMain demoEnvNoFfmpeg demoArgs demoS).2.dirs =
      (if demoArgs.video.stem ∈ demoS.dirs then demoS.dirs
       else demoS.dirs ++ [demoArgs.video.stem]) ∧
    execs (runMain demoEnvNoFfmpeg demoArgs demoS).2.trace = execs demoS.trace :=
  missing_tool_exits_nonzero_after_mkdir demoEnvNoFfmpeg demoArgs demoS "small"
    "fr" rfl rfl rfl rfl (by decide) rfl

/-- Counterexample for C2: the same run exits non-zero but has already
modified the filesystem — the output directory was created before the
tool check. -/
theorem missing_tool_still_creates_output_dir :
    (runMain demoEnvNoFfmpeg demoArgs demoS).1 = 1 ∧
    (runMain demoEnvNoFfmpeg demoArgs demoS).2.dirs ≠ demoS.dirs := by
  constructor
  · rfl
  · decide

end AutoGenSub
